import Mathlib

set_option linter.unusedVariables false
set_option linter.unnecessarySeqFocus false

/-!
Shallow embedding of `src/fs.c`, the user-level file-system API of the
BFS disk-image file system, together with proofs about the claims of the
specification.

The file `fs.c` is the only source file available.  Its helper layer
(`bfs.c` / `bfs.h`: the open file table `g_oft`, `bfsTell`, `bfsSetCursor`,
`bfsFbnToDbn`, `bioRead`, `bioWrite`, the `bfsInit*` functions and the
error codes) is not part of the sources, so those helpers are modelled
from the specification, as stated in the doc comment of each modelled
definition.  Everything named `fs*` below is translated directly from
`src/fs.c`.

Representation choices:
  * bytes and byte counts are `Nat` (the spec types counts as `usize`;
    every reachable cursor is nonnegative because `fsSeek` rejects
    negative offsets);
  * the seek offset keeps its C type `i32` and is an `Int`, because its
    sign is semantically relevant;
  * the composition of `bfsFbnToDbn` with the raw block device is
    modelled as a map from (inode number, file block number, offset in
    block) to byte: per the spec, distinct inodes never share physical
    blocks, so a write through `bfsFbnToDbn inum fbn` is visible exactly
    at `(inum, fbn)`;
  * `FATAL(e)`, which aborts the process, is modelled as `Except.error e`;
  * the file block numbers passed to `bfsFbnToDbn` are returned as an
    explicit trace (`resolved`), and the per-iteration `memcpy` byte
    counts of `fsRead` as the trace `chunks`, so that claims about which
    blocks an operation touches are statable.
-/

def BYTESPERBLOCK : Nat := 512

def SEEK_SET : Nat := 0

def SEEK_CUR : Nat := 1

def SEEK_END : Nat := 2

/-- Modelled from the spec: the error kinds of `fs.h`/`errors.h` (not in
`src/`).  Only the identity of an error matters to the claims, never a
numeric value, so they are an inductive type.  `eInit ret` stands for
`FATAL(ret)` with the nonzero return code of a failed `bfsInit*` call. -/
inductive ErrCode where
  | eDiskCreate
  | eBadCurs
  | eBadWhence
  | eInit (ret : Int)
  deriving DecidableEq, Repr

/-- Modelled from the spec: one Open File Table entry (`g_oft[ofte]`),
keyed by inode number: a byte cursor and a reference count.  The
reference count is an `Int` because `fsClose` decrements it with no
validation, so it can go below zero on a double close. -/
structure OFTE where
  curs : Nat
  refs : Int

/-- The state visible to `fs.c`: the disk content reachable through
`bfsFbnToDbn` (per inode and file block number), the logical size of
each inode, the OFT entry of each inode, and the descriptor table
mapping a file descriptor to its inode number. -/
structure FSState where
  fileBlk : Nat → Nat → Nat → Nat
  size : Nat → Nat
  oft : Nat → OFTE
  fdToInum : Nat → Nat

/-- Modelled from the spec: `bfsFdToInum` maps a live file descriptor to
the inode number of its OFT entry ("descriptor is a deterministic
transform of, or index paired with, the OFT entry"). -/
def bfsFdToInum (st : FSState) (fd : Nat) : Nat :=
  st.fdToInum fd

/-- Modelled from the spec: `bfsTell` reads the cursor of the OFT entry
keyed by the descriptor's inode number. -/
def bfsTell (st : FSState) (fd : Nat) : Nat :=
  (st.oft (bfsFdToInum st fd)).curs

/-- Modelled from the spec: `bfsGetSize` returns the inode's logical
size in bytes. -/
def bfsGetSize (st : FSState) (inum : Nat) : Nat :=
  st.size inum

/-- Modelled from the spec: `bfsSetCursor` stores a new cursor into the
OFT entry keyed by `inum`.  `fs.c` touches the logical size only through
this call (`fsWrite` ends with `bfsSetCursor(inum, cursor + numb)`), and
the spec states that the logical size is "the maximum byte offset ever
written or explicitly sought-to-and-written", "updated after every write
that extends past the previous size"; accordingly the helper raises the
inode's size to `newCurs` whenever `newCurs` exceeds it. -/
def bfsSetCursor (st : FSState) (inum : Nat) (newCurs : Nat) : FSState :=
  let st1 : FSState :=
    { st with oft := fun i => if i = inum then { st.oft i with curs := newCurs } else st.oft i }
  if st.size inum < newCurs then
    { st1 with size := fun i => if i = inum then newCurs else st.size i }
  else st1

/-- The raw cursor store `g_oft[ofte].curs = c` performed by `fsSeek`,
which writes the OFT entry found by `bfsFindOFTE(inum)` directly,
without going through `bfsSetCursor`. -/
def oftStoreCurs (st : FSState) (inum : Nat) (c : Nat) : FSState :=
  { st with oft := fun i => if i = inum then { st.oft i with curs := c } else st.oft i }

/-- Modelled from the spec: `bfsDerefOFT` decrements the reference count
of the OFT entry keyed by `inum` (reclamation of a zero-reference slot
only affects later `open` calls, which are outside the sources and the
claims). -/
def bfsDerefOFT (st : FSState) (inum : Nat) : FSState :=
  { st with oft := fun i => if i = inum then { st.oft i with refs := (st.oft i).refs - 1 } else st.oft i }

/-- `fsClose` from `src/fs.c`: map the descriptor to its inode,
dereference that OFT entry, return 0.  There is no validation and no
error path. -/
def fsClose (st : FSState) (fd : Nat) : FSState × Nat :=
  let inum := bfsFdToInum st fd
  (bfsDerefOFT st inum, 0)

/-- `fsTell` from `src/fs.c`. -/
def fsTell (st : FSState) (fd : Nat) : Nat :=
  bfsTell st fd

/-- `fsSize` from `src/fs.c`: `bfsGetSize(bfsFdToInum(fd))`. -/
def fsSize (st : FSState) (fd : Nat) : Nat :=
  bfsGetSize st (bfsFdToInum st fd)

/-- `fsSeek` from `src/fs.c`.  The guard `offset < 0` runs before the
`switch`, so a negative offset is fatal (`FATAL(EBADCURS)`, modelled as
`Except.error`) for every `whence`; `SEEK_SET` stores `offset`,
`SEEK_CUR` adds it to the cursor, `SEEK_END` stores `fsSize fd + offset`,
all directly into `g_oft[ofte].curs`; any other `whence` is
`FATAL(EBADWHENCE)`. -/
def fsSeek (st : FSState) (fd : Nat) (offset : Int) (whence : Nat) :
    Except ErrCode (FSState × Nat) :=
  if offset < 0 then Except.error ErrCode.eBadCurs
  else
    let inum := bfsFdToInum st fd
    if whence = SEEK_SET then
      Except.ok (oftStoreCurs st inum offset.toNat, 0)
    else if whence = SEEK_CUR then
      Except.ok (oftStoreCurs st inum ((st.oft inum).curs + offset.toNat), 0)
    else if whence = SEEK_END then
      Except.ok (oftStoreCurs st inum (fsSize st fd + offset.toNat), 0)
    else Except.error ErrCode.eBadWhence

/-- Result of `fsRead`: the bytes copied to the caller's buffer in
order, the file block numbers passed to `bfsFbnToDbn` in call order, the
per-iteration `memcpy` byte counts, the final state, and the returned
`readBytes`. -/
structure ReadOut where
  buf : List Nat
  resolved : List Nat
  chunks : List Nat
  st : FSState
  ret : Nat

/-- The `for (fbn = fbnStart; fbn <= fbnEnd; fbn++)` loop of `fsRead`,
by recursion on the number `k` of remaining iterations.  Each iteration
resolves `fbn` via `bfsFbnToDbn`, reads the block (`bioRead`), copies
`bytesToRead` bytes starting at `offset` into the caller's buffer
(`memcpy`), advances the local `cursor`, and stores it with
`bfsSetCursor`.  Note that `bytesToRead` of the `fbn == fbnEnd`
iteration is computed from the already-advanced local `cursor`, exactly
as in the source. -/
def fsReadLoop (inum fbnStart fbnEnd numb : Nat) :
    Nat → Nat → Nat → Nat → FSState → ReadOut
  | 0, fbn, cursor, readBytes, st => ⟨[], [], [], st, readBytes⟩
  | k + 1, fbn, cursor, readBytes, st =>
    let offset := if fbn = fbnStart then cursor % BYTESPERBLOCK else 0
    let bytesToRead :=
      if fbn = fbnEnd then (cursor + numb) % BYTESPERBLOCK - offset
      else BYTESPERBLOCK - offset
    let chunk := (List.range bytesToRead).map fun j => st.fileBlk inum fbn (offset + j)
    let st1 := bfsSetCursor st inum (cursor + bytesToRead)
    let r := fsReadLoop inum fbnStart fbnEnd numb k (fbn + 1) (cursor + bytesToRead)
               (readBytes + bytesToRead) st1
    ⟨chunk ++ r.buf, fbn :: r.resolved, bytesToRead :: r.chunks, r.st, r.ret⟩

/-- `fsRead` from `src/fs.c`: compute `fbnStart = cursor / 512` and
`fbnEnd = (cursor + numb) / 512`, loop over `fbn` from `fbnStart` to
`fbnEnd` inclusive, return the accumulated `readBytes`.  There is no
end-of-file check anywhere in the function. -/
def fsRead (st : FSState) (fd : Nat) (numb : Nat) : ReadOut :=
  let inum := bfsFdToInum st fd
  let cursor := bfsTell st fd
  let fbnStart := cursor / BYTESPERBLOCK
  let fbnEnd := (cursor + numb) / BYTESPERBLOCK
  fsReadLoop inum fbnStart fbnEnd numb (fbnEnd + 1 - fbnStart) fbnStart cursor 0 st

/-- The effect of one `bioRead; memcpy(bio + dst, buf + bufOffset,
len); bioWrite` read-modify-write sequence of `fsWrite` on the block
`(inum, fbn)`: offsets `dst ≤ off < dst + len` take the bytes
`buf[bufOffset + (off - dst)]`, every other byte of the disk is
unchanged. -/
def bioWriteAt (st : FSState) (inum fbn dst : Nat) (buf : List Nat)
    (bufOffset len : Nat) : FSState :=
  { st with fileBlk := fun i f off =>
      if i = inum ∧ f = fbn ∧ dst ≤ off ∧ off < dst + len then
        buf.getD (bufOffset + (off - dst)) 0
      else st.fileBlk i f off }

/-- Result of `fsWrite`: the file block numbers passed to `bfsFbnToDbn`
in call order, the final state, and the return value (always 0). -/
structure WriteOut where
  resolved : List Nat
  st : FSState
  ret : Nat

/-- The `for (i = fbnStart; i <= fbnEnd; i++)` loop of `fsWrite`, by
recursion on the number `k` of remaining iterations, carrying the block
index `i` and the mutable locals `bytesToWrite`, `bioOffset` and
`bufOffset`.  The loop breaks when `bytesToWrite == 0` before resolving
any block; otherwise it resolves block `i`, and performs the
read-modify-write of `writing` bytes at in-block offset
`BYTESPERBLOCK - bioOffset` (first branch, `bioOffset > 0`) or `0`
(second branch). -/
def fsWriteLoop (inum : Nat) (buf : List Nat) :
    Nat → Nat → Nat → Nat → Nat → FSState → FSState × List Nat
  | 0, i, bytesToWrite, bioOffset, bufOffset, st => (st, [])
  | k + 1, i, bytesToWrite, bioOffset, bufOffset, st =>
    if bytesToWrite = 0 then (st, [])
    else if 0 < bioOffset then
      let writing := if bytesToWrite ≤ bioOffset then bytesToWrite else bioOffset
      let st1 := bioWriteAt st inum i (BYTESPERBLOCK - bioOffset) buf bufOffset writing
      let r := fsWriteLoop inum buf k (i + 1) (bytesToWrite - writing) 0
                 (bufOffset + writing) st1
      (r.1, i :: r.2)
    else
      let writing := if bytesToWrite ≤ BYTESPERBLOCK then bytesToWrite else BYTESPERBLOCK
      let st1 := bioWriteAt st inum i 0 buf bufOffset writing
      let r := fsWriteLoop inum buf k (i + 1) (bytesToWrite - writing) bioOffset
                 (bufOffset + writing) st1
      (r.1, i :: r.2)

/-- `fsWrite` from `src/fs.c`: compute `fbnStart`, `fbnEnd`, the first
block's `bioOffset = (fbnStart + 1) * BYTESPERBLOCK - cursor`, run the
loop, then `bfsSetCursor(inum, cursor + numb)` and return 0. -/
def fsWrite (st : FSState) (fd : Nat) (numb : Nat) (buf : List Nat) : WriteOut :=
  let inum := bfsFdToInum st fd
  let cursor := bfsTell st fd
  let fbnStart := cursor / BYTESPERBLOCK
  let fbnEnd := (cursor + numb) / BYTESPERBLOCK
  let bioOffset := (fbnStart + 1) * BYTESPERBLOCK - cursor
  let r := fsWriteLoop inum buf (fbnEnd + 1 - fbnStart) fbnStart numb bioOffset 0 st
  { resolved := r.2, st := bfsSetCursor r.1 inum (cursor + numb), ret := 0 }

/-- The four structures `fsFormat` initializes, in source order. -/
inductive FmtStep where
  | superBlock
  | inodes
  | dir
  | freeList
  deriving DecidableEq, Repr

/-- Environment of `fsFormat`: whether `fopen(BFSDISK, "w+b")` succeeds,
and the return codes of the four `bfsInit*` calls (0 means success), the
initializers themselves being outside the sources. -/
structure FormatEnv where
  fopenOk : Bool
  retSuper : Int
  retInodes : Int
  retDir : Int
  retFree : Int

/-- `fsFormat` from `src/fs.c`: create the backing image
(`FATAL(EDISKCREATE)` when `fopen` fails), then run `bfsInitSuper`,
`bfsInitInodes`, `bfsInitDir`, `bfsInitFreeList` in that order, aborting
(`FATAL(ret)`, modelled as `Except.error (ErrCode.eInit ret)`) at the
first nonzero return; on success return 0.  The second component is the
trace of initializers that actually ran. -/
def fsFormat (env : FormatEnv) : Except ErrCode Int × List FmtStep :=
  if env.fopenOk = false then (Except.error ErrCode.eDiskCreate, [])
  else
    let tr1 : List FmtStep := [FmtStep.superBlock]
    if env.retSuper ≠ 0 then (Except.error (ErrCode.eInit env.retSuper), tr1)
    else
      let tr2 := tr1 ++ [FmtStep.inodes]
      if env.retInodes ≠ 0 then (Except.error (ErrCode.eInit env.retInodes), tr2)
      else
        let tr3 := tr2 ++ [FmtStep.dir]
        if env.retDir ≠ 0 then (Except.error (ErrCode.eInit env.retDir), tr3)
        else
          let tr4 := tr3 ++ [FmtStep.freeList]
          if env.retFree ≠ 0 then (Except.error (ErrCode.eInit env.retFree), tr4)
          else (Except.ok 0, tr4)

/-! ## Basic state lemmas -/

theorem bfsSetCursor_fileBlk (st : FSState) (inum c : Nat) :
    (bfsSetCursor st inum c).fileBlk = st.fileBlk := by
  unfold bfsSetCursor
  split <;> rfl

theorem bfsSetCursor_fdToInum (st : FSState) (inum c : Nat) :
    (bfsSetCursor st inum c).fdToInum = st.fdToInum := by
  unfold bfsSetCursor
  split <;> rfl

theorem bfsSetCursor_curs (st : FSState) (inum c : Nat) :
    ((bfsSetCursor st inum c).oft inum).curs = c := by
  unfold bfsSetCursor
  split <;> simp

theorem bfsSetCursor_size (st : FSState) (inum c : Nat) :
    (bfsSetCursor st inum c).size inum =
      if st.size inum < c then c else st.size inum := by
  unfold bfsSetCursor
  split <;> simp_all

theorem bioWriteAt_oft (st : FSState) (inum fbn dst : Nat) (buf : List Nat)
    (bo len : Nat) : (bioWriteAt st inum fbn dst buf bo len).oft = st.oft := rfl

theorem bioWriteAt_size (st : FSState) (inum fbn dst : Nat) (buf : List Nat)
    (bo len : Nat) : (bioWriteAt st inum fbn dst buf bo len).size = st.size := rfl

theorem bioWriteAt_fdToInum (st : FSState) (inum fbn dst : Nat) (buf : List Nat)
    (bo len : Nat) : (bioWriteAt st inum fbn dst buf bo len).fdToInum = st.fdToInum := rfl

/-! ## Unfolding lemmas for the write loop -/

theorem fsWriteLoop_zeroK (inum : Nat) (buf : List Nat) (i R b W : Nat) (st : FSState) :
    fsWriteLoop inum buf 0 i R b W st = (st, []) := rfl

theorem fsWriteLoop_zeroR (inum : Nat) (buf : List Nat) (k i b W : Nat) (st : FSState) :
    fsWriteLoop inum buf (k + 1) i 0 b W st = (st, []) := by
  simp [fsWriteLoop]

theorem fsWriteLoop_pos (inum : Nat) (buf : List Nat) (k i R b W : Nat) (st : FSState)
    (hR : R ≠ 0) (hb : 0 < b) :
    fsWriteLoop inum buf (k + 1) i R b W st =
      ((fsWriteLoop inum buf k (i + 1) (R - min R b) 0 (W + min R b)
          (bioWriteAt st inum i (BYTESPERBLOCK - b) buf W (min R b))).1,
       i :: (fsWriteLoop inum buf k (i + 1) (R - min R b) 0 (W + min R b)
          (bioWriteAt st inum i (BYTESPERBLOCK - b) buf W (min R b))).2) := by
  simp [fsWriteLoop, hR, hb, min_def]

theorem fsWriteLoop_nopos (inum : Nat) (buf : List Nat) (k i R b W : Nat) (st : FSState)
    (hR : R ≠ 0) (hb : ¬ 0 < b) :
    fsWriteLoop inum buf (k + 1) i R b W st =
      ((fsWriteLoop inum buf k (i + 1) (R - min R BYTESPERBLOCK) b (W + min R BYTESPERBLOCK)
          (bioWriteAt st inum i 0 buf W (min R BYTESPERBLOCK))).1,
       i :: (fsWriteLoop inum buf k (i + 1) (R - min R BYTESPERBLOCK) b (W + min R BYTESPERBLOCK)
          (bioWriteAt st inum i 0 buf W (min R BYTESPERBLOCK))).2) := by
  simp [fsWriteLoop, hR, hb, min_def]

/-! ## Invariants of the write loop -/

theorem fsWriteLoop_oft (inum : Nat) (buf : List Nat) :
    ∀ k i R b W st, (fsWriteLoop inum buf k i R b W st).1.oft = st.oft := by
  intro k
  induction k with
  | zero => intro i R b W st; rfl
  | succ k ih =>
    intro i R b W st
    by_cases hR : R = 0
    · subst hR; rw [fsWriteLoop_zeroR]
    · by_cases hb : 0 < b
      · rw [fsWriteLoop_pos inum buf k i R b W st hR hb]
        rw [ih]
        rfl
      · rw [fsWriteLoop_nopos inum buf k i R b W st hR hb]
        rw [ih]
        rfl

theorem fsWriteLoop_size (inum : Nat) (buf : List Nat) :
    ∀ k i R b W st, (fsWriteLoop inum buf k i R b W st).1.size = st.size := by
  intro k
  induction k with
  | zero => intro i R b W st; rfl
  | succ k ih =>
    intro i R b W st
    by_cases hR : R = 0
    · subst hR; rw [fsWriteLoop_zeroR]
    · by_cases hb : 0 < b
      · rw [fsWriteLoop_pos inum buf k i R b W st hR hb, ih]; rfl
      · rw [fsWriteLoop_nopos inum buf k i R b W st hR hb, ih]; rfl

theorem fsWriteLoop_fdToInum (inum : Nat) (buf : List Nat) :
    ∀ k i R b W st, (fsWriteLoop inum buf k i R b W st).1.fdToInum = st.fdToInum := by
  intro k
  induction k with
  | zero => intro i R b W st; rfl
  | succ k ih =>
    intro i R b W st
    by_cases hR : R = 0
    · subst hR; rw [fsWriteLoop_zeroR]
    · by_cases hb : 0 < b
      · rw [fsWriteLoop_pos inum buf k i R b W st hR hb, ih]; rfl
      · rw [fsWriteLoop_nopos inum buf k i R b W st hR hb, ih]; rfl

theorem bioWriteAt_frame (st : FSState) (inum fbn dst : Nat) (buf : List Nat)
    (bo len : Nat) (i0 f0 o : Nat) (h : ¬ (i0 = inum ∧ f0 = fbn)) :
    (bioWriteAt st inum fbn dst buf bo len).fileBlk i0 f0 o = st.fileBlk i0 f0 o := by
  unfold bioWriteAt
  simp only []
  rw [if_neg]
  intro hc
  exact h ⟨hc.1, hc.2.1⟩

theorem fsWriteLoop_frame (inum : Nat) (buf : List Nat) :
    ∀ k i R b W st i0 f0 o, (i0 ≠ inum ∨ f0 < i) →
    (fsWriteLoop inum buf k i R b W st).1.fileBlk i0 f0 o = st.fileBlk i0 f0 o := by
  intro k
  induction k with
  | zero => intro i R b W st i0 f0 o h; rfl
  | succ k ih =>
    intro i R b W st i0 f0 o h
    have h1 : i0 ≠ inum ∨ f0 < i + 1 := by
      rcases h with h | h
      · exact Or.inl h
      · exact Or.inr (Nat.lt_succ_of_lt h)
    have h2 : ¬ (i0 = inum ∧ f0 = i) := by
      rintro ⟨rfl, rfl⟩
      rcases h with h | h
      · exact h rfl
      · exact Nat.lt_irrefl _ h
    by_cases hR : R = 0
    · subst hR; rw [fsWriteLoop_zeroR]
    · by_cases hb : 0 < b
      · rw [fsWriteLoop_pos inum buf k i R b W st hR hb]
        rw [ih _ _ _ _ _ _ _ _ h1]
        exact bioWriteAt_frame _ _ _ _ _ _ _ _ _ _ h2
      · rw [fsWriteLoop_nopos inum buf k i R b W st hR hb]
        rw [ih _ _ _ _ _ _ _ _ h1]
        exact bioWriteAt_frame _ _ _ _ _ _ _ _ _ _ h2

theorem bioWriteAt_hit (st : FSState) (inum fbn dst : Nat) (buf : List Nat)
    (bo len o : Nat) (h1 : dst ≤ o) (h2 : o < dst + len) :
    (bioWriteAt st inum fbn dst buf bo len).fileBlk inum fbn o =
      buf.getD (bo + (o - dst)) 0 := by
  unfold bioWriteAt
  simp [h1, h2]

/-- Bytes written by the tail of the write loop (`bioOffset = 0`): when the
remaining `R` bytes fit in the remaining `k` iterations, buffer byte `j`
(for `W ≤ j < W + R`) ends up at file block `i + (j - W) / 512`, in-block
offset `(j - W) % 512`. -/
theorem fsWriteLoop_bytes (inum : Nat) (buf : List Nat) :
    ∀ k i W R st, R ≤ 512 * k →
    ∀ j, W ≤ j → j < W + R →
    (fsWriteLoop inum buf k i R 0 W st).1.fileBlk inum
        (i + (j - W) / 512) ((j - W) % 512) = buf.getD j 0 := by
  intro k
  induction k with
  | zero =>
    intro i W R st hR j hWj hjR
    omega
  | succ k ih =>
    intro i W R st hR j hWj hjR
    have hR0 : R ≠ 0 := by omega
    have hb : ¬ 0 < (0 : Nat) := by omega
    rw [fsWriteLoop_nopos inum buf k i R 0 W st hR0 hb]
    simp only [BYTESPERBLOCK]
    by_cases hsmall : R ≤ 512
    · have hmin : min R 512 = R := by omega
      rw [hmin]
      have hzero : R - R = 0 := by omega
      rw [hzero]
      have hloop : ∀ st2, (fsWriteLoop inum buf k (i + 1) 0 0 (W + R) st2).1 = st2 := by
        intro st2
        cases k with
        | zero => rfl
        | succ k => rw [fsWriteLoop_zeroR]
      rw [hloop]
      have hdj : i + (j - W) / 512 = i := by omega
      have hmj : (j - W) % 512 = j - W := by omega
      rw [hdj, hmj]
      rw [bioWriteAt_hit st inum i 0 buf W R (j - W) (by omega) (by omega)]
      congr 1
      omega
    · have hmin : min R 512 = 512 := by omega
      rw [hmin]
      by_cases hin : j < W + 512
      · have hdj : i + (j - W) / 512 = i := by omega
        have hmj : (j - W) % 512 = j - W := by omega
        rw [hdj, hmj]
        rw [fsWriteLoop_frame inum buf k (i + 1) (R - 512) 0 (W + 512)
          (bioWriteAt st inum i 0 buf W 512) inum i (j - W)
          (Or.inr (Nat.lt_succ_self i))]
        rw [bioWriteAt_hit st inum i 0 buf W 512 (j - W) (by omega) (by omega)]
        congr 1
        omega
      · have happ := ih (i + 1) (W + 512) (R - 512)
          (bioWriteAt st inum i 0 buf W 512) (by omega) j (by omega) (by omega)
        have hd2 : i + 1 + (j - (W + 512)) / 512 = i + (j - W) / 512 := by omega
        have hm2 : (j - (W + 512)) % 512 = (j - W) % 512 := by omega
        rw [hd2, hm2] at happ
        exact happ

theorem fsWriteLoop_R0 (inum : Nat) (buf : List Nat) (k i b W : Nat) (st : FSState) :
    (fsWriteLoop inum buf k i 0 b W st).1 = st := by
  cases k with
  | zero => rfl
  | succ k => rw [fsWriteLoop_zeroR]

theorem fsWriteLoop_R0_resolved (inum : Nat) (buf : List Nat) (k i b W : Nat) (st : FSState) :
    (fsWriteLoop inum buf k i 0 b W st).2 = [] := by
  cases k with
  | zero => rfl
  | succ k => rw [fsWriteLoop_zeroR]

/-- The full write loop, as called by `fsWrite` with `q = cursor / 512`,
`a = cursor % 512`, `Q = (cursor + numb) / 512`: buffer byte `j < numb`
lands at file block `(c0 + j) / 512`, in-block offset `(c0 + j) % 512`. -/
theorem fsWriteLoop_top (inum : Nat) (buf : List Nat) (st : FSState)
    (c0 numb q a Q : Nat) (hq : 512 * q + a = c0) (ha : a < 512)
    (hQ1 : 512 * Q ≤ c0 + numb) (hQ2 : c0 + numb < 512 * Q + 512) :
    ∀ j, j < numb →
    (fsWriteLoop inum buf ((Q - q) + 1) q numb (512 - a) 0 st).1.fileBlk inum
        ((c0 + j) / 512) ((c0 + j) % 512) = buf.getD j 0 := by
  intro j hj
  have hnumb0 : numb ≠ 0 := by omega
  have hbpos : 0 < 512 - a := by omega
  rw [fsWriteLoop_pos inum buf (Q - q) q numb (512 - a) 0 st hnumb0 hbpos]
  simp only [BYTESPERBLOCK]
  have hdst : 512 - (512 - a) = a := by omega
  rw [hdst]
  by_cases hsm : numb ≤ 512 - a
  · have hmin : min numb (512 - a) = numb := by omega
    rw [hmin]
    have hz : numb - numb = 0 := by omega
    rw [hz, fsWriteLoop_R0]
    have h1 : (c0 + j) / 512 = q := by omega
    have h2 : (c0 + j) % 512 = a + j := by omega
    rw [h1, h2, bioWriteAt_hit st inum q a buf 0 numb (a + j) (by omega) (by omega)]
    congr 1
    omega
  · have hmin : min numb (512 - a) = 512 - a := by omega
    rw [hmin]
    by_cases hj1 : j < 512 - a
    · have h1 : (c0 + j) / 512 = q := by omega
      have h2 : (c0 + j) % 512 = a + j := by omega
      rw [h1, h2]
      rw [fsWriteLoop_frame inum buf (Q - q) (q + 1) (numb - (512 - a)) 0 (0 + (512 - a))
        (bioWriteAt st inum q a buf 0 (512 - a)) inum q (a + j) (Or.inr (Nat.lt_succ_self q))]
      rw [bioWriteAt_hit st inum q a buf 0 (512 - a) (a + j) (by omega) (by omega)]
      congr 1
      omega
    · have hcap : numb - (512 - a) ≤ 512 * (Q - q) := by omega
      have happ := fsWriteLoop_bytes inum buf (Q - q) (q + 1) (0 + (512 - a))
        (numb - (512 - a)) (bioWriteAt st inum q a buf 0 (512 - a)) hcap j (by omega) (by omega)
      have h1 : (c0 + j) / 512 = (q + 1) + (j - (0 + (512 - a))) / 512 := by omega
      have h2 : (c0 + j) % 512 = (j - (0 + (512 - a))) % 512 := by omega
      rw [h1, h2]
      exact happ

/-! ## fsWrite unfoldings -/

theorem fsWrite_st_eq (st : FSState) (fd : Nat) (numb : Nat) (buf : List Nat) :
    (fsWrite st fd numb buf).st =
      bfsSetCursor
        (fsWriteLoop (bfsFdToInum st fd) buf
          ((bfsTell st fd + numb) / BYTESPERBLOCK + 1 - bfsTell st fd / BYTESPERBLOCK)
          (bfsTell st fd / BYTESPERBLOCK) numb
          ((bfsTell st fd / BYTESPERBLOCK + 1) * BYTESPERBLOCK - bfsTell st fd) 0 st).1
        (bfsFdToInum st fd) (bfsTell st fd + numb) := rfl

theorem fsWrite_resolved_eq (st : FSState) (fd : Nat) (numb : Nat) (buf : List Nat) :
    (fsWrite st fd numb buf).resolved =
      (fsWriteLoop (bfsFdToInum st fd) buf
        ((bfsTell st fd + numb) / BYTESPERBLOCK + 1 - bfsTell st fd / BYTESPERBLOCK)
        (bfsTell st fd / BYTESPERBLOCK) numb
        ((bfsTell st fd / BYTESPERBLOCK + 1) * BYTESPERBLOCK - bfsTell st fd) 0 st).2 := rfl

theorem fsWrite_fdToInum (st : FSState) (fd : Nat) (numb : Nat) (buf : List Nat) :
    (fsWrite st fd numb buf).st.fdToInum = st.fdToInum := by
  rw [fsWrite_st_eq, bfsSetCursor_fdToInum, fsWriteLoop_fdToInum]

theorem fsWrite_tell (st : FSState) (fd fd2 : Nat) (numb : Nat) (buf : List Nat)
    (h : bfsFdToInum st fd2 = bfsFdToInum st fd) :
    fsTell (fsWrite st fd numb buf).st fd2 = bfsTell st fd + numb := by
  have h2 : bfsFdToInum (fsWrite st fd numb buf).st fd2 = bfsFdToInum st fd := by
    unfold bfsFdToInum
    rw [fsWrite_fdToInum]
    exact h
  unfold fsTell bfsTell
  rw [h2, fsWrite_st_eq]
  exact bfsSetCursor_curs _ _ _

theorem fsWrite_size (st : FSState) (fd : Nat) (numb : Nat) (buf : List Nat) :
    fsSize (fsWrite st fd numb buf).st fd =
      if st.size (bfsFdToInum st fd) < bfsTell st fd + numb then bfsTell st fd + numb
      else st.size (bfsFdToInum st fd) := by
  unfold fsSize bfsGetSize
  have h2 : bfsFdToInum (fsWrite st fd numb buf).st fd = bfsFdToInum st fd := by
    unfold bfsFdToInum
    rw [fsWrite_fdToInum]
  rw [h2, fsWrite_st_eq, bfsSetCursor_size, fsWriteLoop_size]

/-- Claim C3: for every open descriptor and count, `fsWrite` returns 0,
writes all `numb` bytes of the buffer into the file at consecutive byte
offsets starting at the pre-call cursor (byte `j` of the buffer lands at
file block `(cursor + j) / BYTESPERBLOCK`, in-block offset
`(cursor + j) % BYTESPERBLOCK`), and leaves the shared cursor equal to
its pre-call value plus `numb`. -/
theorem c3_write_full_and_cursor (st : FSState) (fd : Nat) (numb : Nat) (buf : List Nat) :
    (fsWrite st fd numb buf).ret = 0 ∧
    fsTell (fsWrite st fd numb buf).st fd = fsTell st fd + numb ∧
    ∀ j, j < numb →
      (fsWrite st fd numb buf).st.fileBlk (bfsFdToInum st fd)
        ((fsTell st fd + j) / BYTESPERBLOCK) ((fsTell st fd + j) % BYTESPERBLOCK)
        = buf.getD j 0 := by
  refine ⟨rfl, fsWrite_tell st fd fd numb buf rfl, ?_⟩
  intro j hj
  have hblk : (fsWrite st fd numb buf).st.fileBlk =
      (fsWriteLoop (bfsFdToInum st fd) buf
        ((bfsTell st fd + numb) / BYTESPERBLOCK + 1 - bfsTell st fd / BYTESPERBLOCK)
        (bfsTell st fd / BYTESPERBLOCK) numb
        ((bfsTell st fd / BYTESPERBLOCK + 1) * BYTESPERBLOCK - bfsTell st fd) 0 st).1.fileBlk := by
    rw [fsWrite_st_eq, bfsSetCursor_fileBlk]
  rw [hblk]
  simp only [fsTell, BYTESPERBLOCK]
  have hdm := Nat.div_add_mod (bfsTell st fd) 512
  have hdm2 := Nat.div_add_mod (bfsTell st fd + numb) 512
  have hm1 : bfsTell st fd % 512 < 512 := Nat.mod_lt _ (by norm_num)
  have hm2 : (bfsTell st fd + numb) % 512 < 512 := Nat.mod_lt _ (by norm_num)
  have hk : (bfsTell st fd + numb) / 512 + 1 - bfsTell st fd / 512 =
      ((bfsTell st fd + numb) / 512 - bfsTell st fd / 512) + 1 := by omega
  have hbo : (bfsTell st fd / 512 + 1) * 512 - bfsTell st fd = 512 - bfsTell st fd % 512 := by
    omega
  rw [hk, hbo]
  exact fsWriteLoop_top (bfsFdToInum st fd) buf st (bfsTell st fd) numb
    (bfsTell st fd / 512) (bfsTell st fd % 512) ((bfsTell st fd + numb) / 512)
    (by omega) hm1 (by omega) (by omega) j hj

/-- Witness for C3: on a file with shared cursor 510, writing the four
bytes `[1,2,3,4]` returns 0, advances the cursor to 514, and byte 3 of
the buffer lands in file block 1 at in-block offset 1. -/
def stC3 : FSState :=
  { fileBlk := fun _ _ _ => 0, size := fun _ => 1024,
    oft := fun _ => ⟨510, 1⟩, fdToInum := fun _ => 0 }

theorem c3_witness :
    (fsWrite stC3 0 4 [1, 2, 3, 4]).ret = 0 ∧
    fsTell (fsWrite stC3 0 4 [1, 2, 3, 4]).st 0 = 514 ∧
    (fsWrite stC3 0 4 [1, 2, 3, 4]).st.fileBlk 0 1 1 = 4 := by
  have h := c3_write_full_and_cursor stC3 0 4 [1, 2, 3, 4]
  refine ⟨h.1, ?_, ?_⟩
  · have := h.2.1
    simpa using this
  · have := h.2.2 3 (by norm_num)
    simpa using this

/-- Claim C4 (amended only in presentation: stated for the modelled size
bookkeeping): writing `numb` bytes with the cursor at the current size
`S` makes `fsSize` report `S + numb`; a write whose byte range lies
entirely inside `[0, S)` leaves `fsSize` unchanged. -/
theorem c4_size_monotonic (st : FSState) (fd : Nat) (numb : Nat) (buf : List Nat) :
    (fsTell st fd = fsSize st fd →
      fsSize (fsWrite st fd numb buf).st fd = fsSize st fd + numb) ∧
    (fsTell st fd + numb ≤ fsSize st fd →
      fsSize (fsWrite st fd numb buf).st fd = fsSize st fd) := by
  constructor
  · intro h
    rw [fsWrite_size]
    unfold fsTell bfsTell fsSize bfsGetSize bfsFdToInum at h
    unfold fsSize bfsGetSize bfsFdToInum
    unfold bfsTell bfsFdToInum
    split <;> omega
  · intro h
    rw [fsWrite_size]
    unfold fsTell bfsTell fsSize bfsGetSize bfsFdToInum at h
    unfold fsSize bfsGetSize bfsFdToInum
    unfold bfsTell bfsFdToInum
    split <;> omega

/-- Witness for C4: writing 3 bytes at the end of an empty file (cursor
= size = 0) yields size 3; writing 3 bytes at cursor 0 of a 1024-byte
file leaves the size 1024. -/
def stC4a : FSState :=
  { fileBlk := fun _ _ _ => 0, size := fun _ => 0,
    oft := fun _ => ⟨0, 1⟩, fdToInum := fun _ => 0 }

def stC4b : FSState :=
  { fileBlk := fun _ _ _ => 0, size := fun _ => 1024,
    oft := fun _ => ⟨0, 1⟩, fdToInum := fun _ => 0 }

theorem c4_witness :
    fsSize (fsWrite stC4a 0 3 [1, 2, 3]).st 0 = 3 ∧
    fsSize (fsWrite stC4b 0 3 [1, 2, 3]).st 0 = 1024 := by
  constructor
  · have := (c4_size_monotonic stC4a 0 3 [1, 2, 3]).1 rfl
    simpa using this
  · have := (c4_size_monotonic stC4b 0 3 [1, 2, 3]).2 (by norm_num [fsTell, bfsTell, fsSize, bfsGetSize, bfsFdToInum, stC4b])
    simpa using this

/-- Claim C10, amended: `fsWrite` with `numb = 0` returns 0, resolves no
file block (no `bfsFbnToDbn` call, hence no block I/O), leaves every
disk byte and the cursor unchanged — but it still executes
`bfsSetCursor(inum, cursor + 0)`, which raises the file size to the
cursor position when the cursor had been seeked past the end of file;
only when `cursor ≤ size` is all file state unchanged. -/
theorem c10_write_zero_amended (st : FSState) (fd : Nat) (buf : List Nat) :
    (fsWrite st fd 0 buf).ret = 0 ∧
    (fsWrite st fd 0 buf).resolved = [] ∧
    (fsWrite st fd 0 buf).st.fileBlk = st.fileBlk ∧
    fsTell (fsWrite st fd 0 buf).st fd = fsTell st fd ∧
    (fsWrite st fd 0 buf).st.size (bfsFdToInum st fd) =
      (if st.size (bfsFdToInum st fd) < fsTell st fd then fsTell st fd
       else st.size (bfsFdToInum st fd)) := by
  refine ⟨rfl, ?_, ?_, ?_, ?_⟩
  · rw [fsWrite_resolved_eq]
    exact fsWriteLoop_R0_resolved _ _ _ _ _ _ _
  · rw [fsWrite_st_eq, bfsSetCursor_fileBlk, fsWriteLoop_R0]
  · have := fsWrite_tell st fd fd 0 buf rfl
    simpa [fsTell] using this
  · have hsz := fsWrite_size st fd 0 buf
    unfold fsSize bfsGetSize bfsFdToInum at hsz
    unfold bfsFdToInum fsTell bfsTell
    rw [fsWrite_fdToInum] at hsz
    simpa using hsz

/-- State for the C10 counterexample: the shared cursor was seeked to
512 while the file size is still 0. -/
def stC10 : FSState :=
  { fileBlk := fun _ _ _ => 0, size := fun _ => 0,
    oft := fun _ => ⟨512, 1⟩, fdToInum := fun _ => 0 }

/-- Counterexample to C10 as stated: a zero-length `fsWrite` at a cursor
beyond the end of file resolves no block, yet does not leave all file
state unchanged — its final `bfsSetCursor(inum, cursor + 0)` raises the
file size from 0 to 512. -/
theorem c10_counterexample :
    (fsWrite stC10 0 0 []).resolved = [] ∧
    (fsWrite stC10 0 0 []).st.size 0 = 512 ∧
    stC10.size 0 = 0 ∧ (512 : Nat) ≠ 0 := by decide

/-- Claim C8: `fsClose` returns 0 for every descriptor and every state;
its whole effect is the unconditional dereference of the OFT entry of
`bfsFdToInum fd`, whose reference count drops by one — there is no
validation and no error path. -/
theorem c8_close_spec (st : FSState) (fd : Nat) :
    (fsClose st fd).2 = 0 ∧
    (fsClose st fd).1 = bfsDerefOFT st (bfsFdToInum st fd) ∧
    ((fsClose st fd).1.oft (bfsFdToInum st fd)).refs
      = (st.oft (bfsFdToInum st fd)).refs - 1 := by
  refine ⟨rfl, rfl, ?_⟩
  unfold fsClose bfsDerefOFT
  simp

/-- Claim C7: `fsFormat` succeeds (returns 0) exactly when creating the
image and all four initializations succeed; on success the initializers
ran in the order SuperBlock, Inodes, Directory, FreeList; the only
normal return value is 0; every failure aborts (is a `FATAL`, modelled
`Except.error`) instead of returning; and the executed trace is always a
prefix of the full dependency order. -/
theorem c7_format_spec (env : FormatEnv) :
    ((fsFormat env).1 = Except.ok 0 ↔
      (env.fopenOk = true ∧ env.retSuper = 0 ∧ env.retInodes = 0 ∧
        env.retDir = 0 ∧ env.retFree = 0)) ∧
    ((fsFormat env).1 = Except.ok 0 →
      (fsFormat env).2 = [FmtStep.superBlock, FmtStep.inodes, FmtStep.dir, FmtStep.freeList]) ∧
    (∀ n : Int, (fsFormat env).1 = Except.ok n → n = 0) ∧
    ((fsFormat env).1 ≠ Except.ok 0 → ∃ e, (fsFormat env).1 = Except.error e) ∧
    (∃ l, (fsFormat env).2 ++ l
      = [FmtStep.superBlock, FmtStep.inodes, FmtStep.dir, FmtStep.freeList]) := by
  obtain ⟨fo, rs, ri, rd, rf⟩ := env
  by_cases h0 : fo = false <;> by_cases h1 : rs = 0 <;> by_cases h2 : ri = 0 <;>
    by_cases h3 : rd = 0 <;> by_cases h4 : rf = 0 <;>
      simp [fsFormat, h0, h1, h2, h3, h4]

/-- Witness for C7: in the all-success environment, `fsFormat` returns 0
and the four initializers ran in dependency order. -/
def envC7 : FormatEnv := ⟨true, 0, 0, 0, 0⟩

theorem c7_witness :
    (fsFormat envC7).2 = [FmtStep.superBlock, FmtStep.inodes, FmtStep.dir, FmtStep.freeList] ∧
    (fsFormat envC7).1 = Except.ok 0 := by
  have h := c7_format_spec envC7
  exact ⟨h.2.1 rfl, rfl⟩

theorem oftStoreCurs_tell (st : FSState) (fd : Nat) (c : Nat) :
    fsTell (oftStoreCurs st (bfsFdToInum st fd) c) fd = c := by
  unfold fsTell bfsTell oftStoreCurs bfsFdToInum
  simp

/-- State for the C5 counterexample: an open file with shared cursor 5
and size 100. -/
def stC5 : FSState :=
  { fileBlk := fun _ _ _ => 0, size := fun _ => 100,
    oft := fun _ => ⟨5, 1⟩, fdToInum := fun _ => 0 }

/-- Counterexample to C5 as stated: the claim makes `SEEK_CUR` add the
offset to the cursor unconditionally, but the `offset < 0` guard of
`fsSeek` runs before the `switch`, so `fsSeek(fd, -1, SEEK_CUR)` fails
with `EBADCURS` instead of moving the cursor from 5 to 4. -/
theorem c5_counterexample :
    fsSeek stC5 0 (-1) SEEK_CUR = Except.error ErrCode.eBadCurs := by
  rfl

/-- Claim C5, amended: `fsSeek` fails with `BadCursor` exactly when the
offset is negative, for every `whence` (not only `SET`); for
nonnegative offsets, `SET` assigns the offset, `CUR` adds it to the
cursor, `END` sets cursor to size + offset (so `seek(fd, 0, End)`
followed by `tell` equals `size(fd)`), and any other `whence` fails
with `BadWhence`. -/
theorem c5_seek_spec (st : FSState) (fd : Nat) (offset : Int) (whence : Nat) :
    (fsSeek st fd offset whence = Except.error ErrCode.eBadCurs ↔ offset < 0) ∧
    (0 ≤ offset → whence = SEEK_SET →
      (fsSeek st fd offset whence).map (fun p => fsTell p.1 fd) = Except.ok offset.toNat) ∧
    (0 ≤ offset → whence = SEEK_CUR →
      (fsSeek st fd offset whence).map (fun p => fsTell p.1 fd) =
        Except.ok (fsTell st fd + offset.toNat)) ∧
    (0 ≤ offset → whence = SEEK_END →
      (fsSeek st fd offset whence).map (fun p => fsTell p.1 fd) =
        Except.ok (fsSize st fd + offset.toNat)) ∧
    (0 ≤ offset → whence ≠ SEEK_SET → whence ≠ SEEK_CUR → whence ≠ SEEK_END →
      fsSeek st fd offset whence = Except.error ErrCode.eBadWhence) ∧
    (fsSeek st fd 0 SEEK_END).map (fun p => fsTell p.1 fd) = Except.ok (fsSize st fd) := by
  refine ⟨?_, ?_, ?_, ?_, ?_, ?_⟩
  · by_cases hneg : offset < 0
    · simp [fsSeek, hneg]
    · simp only [fsSeek, if_neg hneg]
      constructor
      · intro h
        split_ifs at h <;> simp_all
      · intro h
        exact absurd h hneg
  · intro h hw
    subst hw
    have hneg : ¬ offset < 0 := not_lt.mpr h
    simp [fsSeek, hneg, Except.map, oftStoreCurs_tell]
  · intro h hw
    subst hw
    have hneg : ¬ offset < 0 := not_lt.mpr h
    simp [fsSeek, SEEK_CUR, SEEK_SET, hneg, Except.map, oftStoreCurs_tell, fsTell, bfsTell]
    have := oftStoreCurs_tell st fd ((st.oft (bfsFdToInum st fd)).curs + offset.toNat)
    unfold fsTell bfsTell at this
    simpa [bfsFdToInum] using this
  · intro h hw
    subst hw
    have hneg : ¬ offset < 0 := not_lt.mpr h
    simp [fsSeek, SEEK_END, SEEK_SET, SEEK_CUR, hneg, Except.map, oftStoreCurs_tell]
  · intro h h1 h2 h3
    have hneg : ¬ offset < 0 := not_lt.mpr h
    simp [fsSeek, hneg, h1, h2, h3]
  · have hneg : ¬ (0 : Int) < 0 := by norm_num
    simp [fsSeek, SEEK_END, SEEK_SET, SEEK_CUR, hneg, Except.map, oftStoreCurs_tell]

/-- Witness for C5: on a concrete open file (cursor 5, size 100),
`seek(7, SET)` then `tell` gives 7; `seek(-2, SET)` fails with
`BadCursor`; `seek(0, END)` then `tell` equals `size`. -/
theorem c5_witness :
    (fsSeek stC5 0 7 SEEK_SET).map (fun p => fsTell p.1 0) = Except.ok 7 ∧
    fsSeek stC5 0 (-2) SEEK_SET = Except.error ErrCode.eBadCurs ∧
    (fsSeek stC5 0 0 SEEK_END).map (fun p => fsTell p.1 0) = Except.ok (fsSize stC5 0) := by
  refine ⟨?_, ?_, ?_⟩
  · exact (c5_seek_spec stC5 0 7 SEEK_SET).2.1 (by norm_num) rfl
  · exact (c5_seek_spec stC5 0 (-2) SEEK_SET).1.mpr (by norm_num)
  · exact (c5_seek_spec stC5 0 0 SEEK_END).2.2.2.2.2

/-! ## Descriptor-irrelevance: every cursor access goes through the OFT
entry keyed by the inode number -/

theorem fsRead_fd_congr (st : FSState) (fd1 fd2 : Nat) (m : Nat)
    (h : bfsFdToInum st fd1 = bfsFdToInum st fd2) :
    fsRead st fd1 m = fsRead st fd2 m := by
  unfold fsRead bfsTell
  rw [h]

theorem fsWrite_fd_congr (st : FSState) (fd1 fd2 : Nat) (numb : Nat) (buf : List Nat)
    (h : bfsFdToInum st fd1 = bfsFdToInum st fd2) :
    fsWrite st fd1 numb buf = fsWrite st fd2 numb buf := by
  unfold fsWrite bfsTell
  rw [h]

theorem fsSeek_fd_congr (st : FSState) (fd1 fd2 : Nat) (offset : Int) (whence : Nat)
    (h : bfsFdToInum st fd1 = bfsFdToInum st fd2) :
    fsSeek st fd1 offset whence = fsSeek st fd2 offset whence := by
  unfold fsSeek fsSize bfsGetSize
  rw [h]

theorem fsTell_fd_congr (st : FSState) (fd1 fd2 : Nat)
    (h : bfsFdToInum st fd1 = bfsFdToInum st fd2) :
    fsTell st fd1 = fsTell st fd2 := by
  unfold fsTell bfsTell
  rw [h]

/-- Claim C6: two descriptors resolving to the same inode share one
cursor: a write through `fd1` moves the cursor that `fd2` observes to
the pre-write cursor plus `numb`; a subsequent read is identical through
either descriptor (in particular it starts at the advanced shared
cursor); and `fsRead`, `fsWrite`, `fsSeek`, `fsTell` depend on the
descriptor only through the inode number that keys the OFT entry. -/
theorem c6_cursor_sharing (st : FSState) (fd1 fd2 : Nat)
    (h : bfsFdToInum st fd1 = bfsFdToInum st fd2) (numb m : Nat) (buf : List Nat)
    (offset : Int) (whence : Nat) :
    fsTell (fsWrite st fd1 numb buf).st fd2 = fsTell st fd1 + numb ∧
    fsRead (fsWrite st fd1 numb buf).st fd2 m = fsRead (fsWrite st fd1 numb buf).st fd1 m ∧
    fsRead st fd1 m = fsRead st fd2 m ∧
    fsWrite st fd1 numb buf = fsWrite st fd2 numb buf ∧
    fsSeek st fd1 offset whence = fsSeek st fd2 offset whence ∧
    fsTell st fd1 = fsTell st fd2 := by
  refine ⟨fsWrite_tell st fd1 fd2 numb buf h.symm, ?_,
    fsRead_fd_congr st fd1 fd2 m h, fsWrite_fd_congr st fd1 fd2 numb buf h,
    fsSeek_fd_congr st fd1 fd2 offset whence h, fsTell_fd_congr st fd1 fd2 h⟩
  apply fsRead_fd_congr
  unfold bfsFdToInum
  rw [fsWrite_fdToInum]
  exact h.symm

/-- Witness state for C6: two descriptors (1 and 2) both resolve to
inode 0, whose OFT entry has cursor 0 and reference count 2. -/
def stC6 : FSState :=
  { fileBlk := fun _ _ _ => 0, size := fun _ => 0,
    oft := fun _ => ⟨0, 2⟩, fdToInum := fun _ => 0 }

theorem c6_witness :
    fsTell (fsWrite stC6 1 2 [5, 6]).st 2 = fsTell stC6 1 + 2 ∧
    fsRead stC6 1 1 = fsRead stC6 2 1 := by
  have h := c6_cursor_sharing stC6 1 2 rfl 2 1 [5, 6] 0 0
  exact ⟨h.1, h.2.2.1⟩

/-- Scenario glue: the state after a successful `fsSeek` (the state
itself is unchanged when the seek fails). -/
def seekOk (st : FSState) (fd : Nat) (offset : Int) (whence : Nat) : FSState :=
  match fsSeek st fd offset whence with
  | Except.ok p => p.1
  | Except.error _ => st

/-- State for the C1 failing input: an all-zero 1024-byte file open with
shared cursor 511. -/
def stC1 : FSState :=
  { fileBlk := fun _ _ _ => 0, size := fun _ => 1024,
    oft := fun _ => ⟨511, 1⟩, fdToInum := fun _ => 0 }

/-- Claim C1 fails on the code (code bug): write `B = [7, 9]` at cursor
511, seek back to 511, read `len B = 2` bytes — the read copies THREE
bytes `[7, 9, 0]` (the two written bytes plus one stale byte, overflowing
the caller's buffer in C) and returns 3, because the final loop
iteration of `fsRead` computes `bytesToRead` from the already-advanced
local `cursor`.  So the round trip does not return exactly `B`. -/
theorem c1_roundtrip_fails :
    (fsRead (seekOk (fsWrite stC1 0 2 [7, 9]).st 0 511 SEEK_SET) 0 2).buf = [7, 9, 0] ∧
    (fsRead (seekOk (fsWrite stC1 0 2 [7, 9]).st 0 511 SEEK_SET) 0 2).ret = 3 ∧
    [7, 9, 0] ≠ ([7, 9] : List Nat) := by
  decide

/-- State for the C2 failing input: an all-zero 1024-byte file open with
shared cursor 511 (so a 2-byte read stays strictly inside the file and
never reaches end-of-file). -/
def stC2 : FSState :=
  { fileBlk := fun _ _ _ => 0, size := fun _ => 1024,
    oft := fun _ => ⟨511, 1⟩, fdToInum := fun _ => 0 }

/-- Claim C2 fails on the code (code bug): reading `numb = 2` bytes at
cursor 511 of a 1024-byte file returns 3 — MORE than the requested
count, with end-of-file nowhere near (511 + 2 ≤ 1024) — contradicting
"returns actual bytes read ≤ requested".  The cause is the
already-advanced `cursor` in the last-iteration `bytesToRead` of
`fsRead`. -/
theorem c2_read_exceeds_numb :
    (fsRead stC2 0 2).ret = 3 ∧
    ¬ ((fsRead stC2 0 2).ret ≤ 2) ∧
    bfsTell stC2 0 + 2 ≤ bfsGetSize stC2 0 := by
  decide

/-! ## Structure of the read loop (for C9) -/

theorem fsReadLoop_resolved (inum fbnStart fbnEnd numb : Nat) :
    ∀ k fbn cursor rB st,
    (fsReadLoop inum fbnStart fbnEnd numb k fbn cursor rB st).resolved
      = List.range' fbn k := by
  intro k
  induction k with
  | zero => intros; rfl
  | succ k ih =>
    intro fbn cursor rB st
    rw [List.range'_succ]
    simp only [fsReadLoop]
    simp [ih]

/-- After the first iteration the loop cursor sits on a block boundary:
from block `fbn` on (with `fbnStart < fbn ≤ fbnEnd`, cursor `512 * fbn`)
each iteration copies a full 512-byte chunk except the last, which
copies `(512 * fbnEnd + numb) % 512 = numb % 512` bytes — computed from
the advanced cursor, not from the bytes remaining. -/
theorem fsReadLoop_chunks_tail (inum fbnStart fbnEnd numb : Nat) :
    ∀ k fbn rB st, fbnStart < fbn → fbn + k = fbnEnd + 1 → 1 ≤ k →
    (fsReadLoop inum fbnStart fbnEnd numb k fbn (512 * fbn) rB st).chunks
      = List.replicate (k - 1) 512 ++ [numb % 512] := by
  intro k
  induction k with
  | zero =>
    intro fbn rB st h1 h2 h3
    omega
  | succ k ih =>
    intro fbn rB st h1 h2 h3
    by_cases hk : k = 0
    · subst hk
      have hfe : fbn = fbnEnd := by omega
      have hfs : fbn ≠ fbnStart := by omega
      simp only [fsReadLoop, BYTESPERBLOCK]
      simp only [if_neg hfs, if_pos hfe]
      simp
      omega
    · have hfs : fbn ≠ fbnStart := by omega
      have hfe : fbn ≠ fbnEnd := by omega
      simp only [fsReadLoop, BYTESPERBLOCK]
      simp only [if_neg hfs, if_neg hfe]
      have hc : 512 * fbn + (512 - 0) = 512 * (fbn + 1) := by omega
      simp only [hc]
      have htail := ih (fbn + 1) (rB + (512 - 0))
        (bfsSetCursor st inum (512 * (fbn + 1))) (by omega) (by omega) (by omega)
      simp only [htail]
      obtain ⟨m, rfl⟩ := Nat.exists_eq_succ_of_ne_zero hk
      simp [List.replicate_succ]

theorem fsRead_eq (st : FSState) (fd : Nat) (numb : Nat) :
    fsRead st fd numb =
      fsReadLoop (bfsFdToInum st fd) (bfsTell st fd / BYTESPERBLOCK)
        ((bfsTell st fd + numb) / BYTESPERBLOCK) numb
        ((bfsTell st fd + numb) / BYTESPERBLOCK + 1 - bfsTell st fd / BYTESPERBLOCK)
        (bfsTell st fd / BYTESPERBLOCK) (bfsTell st fd) 0 st := rfl

/-- Claim C9, amended: for every `fsRead` with `numb > 0` whose range
ends exactly on a block boundary, the loop still resolves file block
`(cursor + numb) / BYTESPERBLOCK` — one block past the block holding the
last requested byte — via `bfsFbnToDbn` and reads it; the final
iteration copies `numb % BYTESPERBLOCK` bytes from that block, which is
zero exactly when the starting cursor is block-aligned (the claim's
"copying zero bytes" holds only then, because the last `bytesToRead` is
computed from the already-advanced cursor). -/
theorem c9_boundary_read (st : FSState) (fd : Nat) (numb : Nat)
    (h1 : 0 < numb) (h2 : (fsTell st fd + numb) % BYTESPERBLOCK = 0) :
    (fsRead st fd numb).resolved =
      List.range' (fsTell st fd / BYTESPERBLOCK)
        ((fsTell st fd + numb) / BYTESPERBLOCK + 1 - fsTell st fd / BYTESPERBLOCK) ∧
    (fsTell st fd + numb) / BYTESPERBLOCK
      = (fsTell st fd + numb - 1) / BYTESPERBLOCK + 1 ∧
    (fsRead st fd numb).chunks.getLast? = some (numb % BYTESPERBLOCK) ∧
    ((fsRead st fd numb).chunks.getLast? = some 0 ↔ fsTell st fd % BYTESPERBLOCK = 0) := by
  simp only [fsTell, BYTESPERBLOCK] at h2 ⊢
  have hq := Nat.div_add_mod (bfsTell st fd) 512
  have hQ := Nat.div_add_mod (bfsTell st fd + numb) 512
  have hm1 : bfsTell st fd % 512 < 512 := Nat.mod_lt _ (by norm_num)
  have hmQ : (bfsTell st fd + numb) % 512 < 512 := Nat.mod_lt _ (by norm_num)
  have hqQ : bfsTell st fd / 512 < (bfsTell st fd + numb) / 512 := by omega
  have hres : (fsRead st fd numb).resolved =
      List.range' (bfsTell st fd / 512)
        ((bfsTell st fd + numb) / 512 + 1 - bfsTell st fd / 512) := by
    rw [fsRead_eq]
    simp only [BYTESPERBLOCK]
    exact fsReadLoop_resolved _ _ _ _ _ _ _ _ _
  have hchunks : (fsRead st fd numb).chunks
      = (512 - bfsTell st fd % 512) ::
        (List.replicate ((bfsTell st fd + numb) / 512 - bfsTell st fd / 512 - 1) 512
          ++ [numb % 512]) := by
    rw [fsRead_eq]
    simp only [BYTESPERBLOCK]
    have hk : (bfsTell st fd + numb) / 512 + 1 - bfsTell st fd / 512
        = ((bfsTell st fd + numb) / 512 - bfsTell st fd / 512) + 1 := by omega
    rw [hk]
    have hne : bfsTell st fd / 512 ≠ (bfsTell st fd + numb) / 512 := by omega
    simp only [fsReadLoop, BYTESPERBLOCK]
    simp [hne]
    have hc : bfsTell st fd + (512 - bfsTell st fd % 512)
        = 512 * (bfsTell st fd / 512 + 1) := by omega
    rw [hc]
    rw [fsReadLoop_chunks_tail (bfsFdToInum st fd) (bfsTell st fd / 512)
      ((bfsTell st fd + numb) / 512) numb
      ((bfsTell st fd + numb) / 512 - bfsTell st fd / 512) (bfsTell st fd / 512 + 1)
      _ _ (by omega) (by omega) (by omega)]
  have hlast : (fsRead st fd numb).chunks.getLast? = some (numb % 512) := by
    rw [hchunks, ← List.cons_append, List.getLast?_concat]
  refine ⟨hres, by omega, hlast, ?_⟩
  rw [hlast]
  constructor
  · intro h
    simp only [Option.some.injEq] at h
    omega
  · intro h
    have hz : numb % 512 = 0 := by omega
    rw [hz]

/-- State for C9: an all-zero 1024-byte file open with shared cursor
100; a 412-byte read ends exactly at the block boundary 512. -/
def stC9 : FSState :=
  { fileBlk := fun _ _ _ => 0, size := fun _ => 1024,
    oft := fun _ => ⟨100, 1⟩, fdToInum := fun _ => 0 }

theorem c9_witness :
    (fsRead stC9 0 412).resolved = List.range' 0 2 ∧
    (fsRead stC9 0 412).chunks.getLast? = some 412 := by
  have h := c9_boundary_read stC9 0 412 (by norm_num) (by decide)
  exact ⟨h.1, h.2.2.1⟩

/-- Counterexample to C9 as stated: the boundary-ending read at cursor
100 with `numb = 412` does resolve the extra block 1, but its last
iteration copies 412 bytes from it, not zero. -/
theorem c9_counterexample :
    (fsRead stC9 0 412).resolved = [0, 1] ∧
    (fsRead stC9 0 412).chunks = [412, 412] ∧
    (fsRead stC9 0 412).chunks.getLast? ≠ some 0 := by
  decide
